import Mathlib

/-!
# Verification of the chunk sampler, training controller and Adafactor optimizer

Shallow embedding of the algorithmic core of `trainval.py` and
`trainval_adafactor.py`: the monotone-predicate binary search, the
boundary-respecting chunk sampler, the validation-gated checkpoint /
early-stopping training loop, and the Adafactor parameter update
(decay-rate schedules, factored second-moment slots, update clipping).

Python integers are modelled as `ℤ`/`ℕ` (Python `//` on a positive divisor
coincides with `Int.ediv`, Lean's `/` on `ℤ`); exact real arithmetic stands
in for floating point; loss values in the training loop are modelled as `ℚ`
so that the control flow is decidable.
-/

namespace GPT2

/-! ## binary_search (trainval.py lines 58-67, trainval_adafactor.py lines 60-69)

```python
def binary_search(f, lo, hi):
    if f(lo) or not f(hi):
        return None
    while hi > lo + 1:
        mid = (lo + hi) // 2
        if f(mid):
            hi = mid
        else:
            lo = mid
    return hi
```

The `while` loop is extracted as `bsearchGo`; it terminates unconditionally
because `lo < mid < hi` whenever the guard `hi > lo + 1` holds. -/

def bsearchGo (f : ℤ → Bool) (lo hi : ℤ) : ℤ :=
  if lo + 1 < hi then
    if f ((lo + hi) / 2) then bsearchGo f lo ((lo + hi) / 2)
    else bsearchGo f ((lo + hi) / 2) hi
  else hi
termination_by (hi - lo).toNat
decreasing_by
  · omega
  · omega

def binary_search (f : ℤ → Bool) (lo hi : ℤ) : Option ℤ :=
  if f lo || !f hi then none
  else some (bsearchGo f lo hi)

/-- If the loop is entered with `lo < hi`, `f lo = false`, `f hi = true`,
it returns the first flip point above `lo`. -/
theorem bsearchGo_spec (f : ℤ → Bool) :
    ∀ (n : ℕ) (lo hi : ℤ), (hi - lo).toNat ≤ n → lo < hi →
      f lo = false → f hi = true →
      lo < bsearchGo f lo hi ∧ bsearchGo f lo hi ≤ hi ∧
        f (bsearchGo f lo hi - 1) = false ∧ f (bsearchGo f lo hi) = true := by
  intro n
  induction n with
  | zero => intro lo hi hn hlt _ _; omega
  | succ n ih =>
    intro lo hi hn hlt hflo hfhi
    rw [bsearchGo]
    by_cases hguard : lo + 1 < hi
    · simp only [hguard, if_true]
      have hmlo : lo < (lo + hi) / 2 := by omega
      have hmhi : (lo + hi) / 2 < hi := by omega
      by_cases hfm : f ((lo + hi) / 2)
      · simp only [hfm, if_true]
        obtain ⟨h1, h2, h3, h4⟩ := ih lo ((lo + hi) / 2) (by omega) hmlo hflo hfm
        exact ⟨h1, by omega, h3, h4⟩
      · simp only [hfm, Bool.false_eq_true, if_false]
        have := ih ((lo + hi) / 2) hi (by omega) hmhi (by simpa using hfm) hfhi
        exact ⟨by omega, this.2.1, this.2.2.1, this.2.2.2⟩
    · simp only [hguard, if_false]
      have : hi = lo + 1 := by omega
      subst this
      refine ⟨by omega, le_refl _, ?_, hfhi⟩
      simpa using hflo

/-- `binary_search` returns `none` exactly when `f lo` is true or `f hi` is
false. -/
theorem binary_search_none_iff (f : ℤ → Bool) (lo hi : ℤ) :
    binary_search f lo hi = none ↔ (f lo = true ∨ f hi = false) := by
  unfold binary_search
  by_cases h1 : f lo <;> by_cases h2 : f hi <;> simp [h1, h2]

/-- When `f lo = false` and `f hi = true` with `lo < hi`, `binary_search`
returns `some j` where `j` is a flip point of `f` in `(lo, hi]`. -/
theorem binary_search_some_spec (f : ℤ → Bool) (lo hi : ℤ)
    (hlt : lo < hi) (hflo : f lo = false) (hfhi : f hi = true) :
    ∃ j, binary_search f lo hi = some j ∧ lo < j ∧ j ≤ hi ∧
      f (j - 1) = false ∧ f j = true := by
  refine ⟨bsearchGo f lo hi, ?_, ?_⟩
  · unfold binary_search; simp [hflo, hfhi]
  · exact bsearchGo_spec f (hi - lo).toNat lo hi le_rfl hlt hflo hfhi

/-- For a monotone predicate the flip point in `(lo, hi]` is unique. -/
theorem flip_point_unique (f : ℤ → Bool) (lo hi : ℤ)
    (mono : ∀ a b, lo ≤ a → a ≤ b → b ≤ hi → f a = true → f b = true)
    (j k : ℤ) (hj1 : lo < j) (hj2 : j ≤ hi) (hj3 : f (j - 1) = false)
    (hj4 : f j = true) (hk1 : lo < k) (hk2 : k ≤ hi) (hk3 : f (k - 1) = false)
    (hk4 : f k = true) : k = j := by
  by_contra hne
  rcases lt_or_gt_of_ne hne with hlt | hlt
  · have : f (j - 1) = true := mono k (j - 1) (by omega) (by omega) (by omega) hk4
    rw [hj3] at this; exact Bool.false_ne_true this
  · have : f (k - 1) = true := mono j (k - 1) (by omega) (by omega) (by omega) hj4
    rw [hk3] at this; exact Bool.false_ne_true this

/-! ## Sampler (trainval.py lines 70-93, trainval_adafactor.py lines 72-95)

```python
class Sampler(object):
    def __init__(self, chunks):
        self.chunks = chunks
        self.total_size = sum(chunk.shape[0] for chunk in chunks)
        self.boundaries = [0]
        for i in range(len(chunks)):
            self.boundaries.append(self.boundaries[-1] + chunks[i].shape[0])

    def sample(self, length):
        assert length < self.total_size // len(
            self.chunks
        ), "Dataset files are too small to sample {} tokens at a time".format(length)
        while True:
            index = random.randint(0, self.total_size - length - 1)
            i = binary_search(lambda j: self.boundaries[j] > index, 0,
                              len(self.boundaries) - 1) - 1
            if self.boundaries[i + 1] > index + length:
                within_chunk = index - self.boundaries[i]
                return self.chunks[i][within_chunk:within_chunk + length]
```

Chunks are token lists; the random draws of the rejection loop are passed
in as an explicit list (the stream produced by `random.randint`, each draw
in `[0, total_size - length - 1]`).  One iteration of the `while True`
loop is `sampleAttempt`; `.ok none` is a rejection (redraw), `.ok (some r)`
a returned slice, and `.error .typeError` models the uncaught `TypeError`
Python would raise on `None - 1` if `binary_search` returned `None`.
Python's slice `c[w : w+length]` is `(c.drop w).take length` (both clamp
out-of-range bounds the same way). -/

structure Sampler where
  chunks : List (List ℤ)

def boundariesAux (acc : ℕ) : List ℕ → List ℕ
  | [] => [acc]
  | l :: ls => acc :: boundariesAux (acc + l) ls

def Sampler.total_size (s : Sampler) : ℕ :=
  (s.chunks.map List.length).sum

def Sampler.boundaries (s : Sampler) : List ℕ :=
  boundariesAux 0 (s.chunks.map List.length)

inductive SampleError where
  | assertionError (msg : String)
  | typeError
  deriving DecidableEq, Repr

def Sampler.sampleAttempt (s : Sampler) (length index : ℕ) :
    Except SampleError (Option (List ℤ)) :=
  match binary_search (fun j => decide (index < s.boundaries.getD j.toNat 0))
      0 ((s.boundaries.length : ℤ) - 1) with
  | none => .error .typeError
  | some jz =>
    let i : ℕ := (jz - 1).toNat
    if index + length < s.boundaries.getD (i + 1) 0 then
      let within_chunk := index - s.boundaries.getD i 0
      .ok (some (((s.chunks.getD i []).drop within_chunk).take length))
    else
      .ok none

def Sampler.sampleLoop (s : Sampler) (length : ℕ) :
    List ℕ → Except SampleError (Option (List ℤ))
  | [] => .ok none
  | index :: rest =>
    match s.sampleAttempt length index with
    | .error e => .error e
    | .ok (some r) => .ok (some r)
    | .ok none => s.sampleLoop length rest

def Sampler.sample (s : Sampler) (length : ℕ) (draws : List ℕ) :
    Except SampleError (Option (List ℤ)) :=
  if length < s.total_size / s.chunks.length then
    s.sampleLoop length draws
  else
    .error (.assertionError
      ("Dataset files are too small to sample " ++ toString length ++
        " tokens at a time"))

/-! ### Structural facts about the boundary array -/

theorem boundariesAux_length (acc : ℕ) (ls : List ℕ) :
    (boundariesAux acc ls).length = ls.length + 1 := by
  induction ls generalizing acc with
  | nil => rfl
  | cons l ls ih => simp [boundariesAux, ih]

theorem boundariesAux_getD (acc : ℕ) (ls : List ℕ) :
    ∀ j, j ≤ ls.length → (boundariesAux acc ls).getD j 0 = acc + (ls.take j).sum := by
  induction ls generalizing acc with
  | nil =>
    intro j hj
    have hj0 : j = 0 := by simpa using hj
    subst hj0; simp [boundariesAux]
  | cons l ls ih =>
    intro j hj
    cases j with
    | zero => simp [boundariesAux]
    | succ j =>
      simp only [boundariesAux, List.getD_cons_succ, List.take_succ_cons, List.sum_cons]
      rw [ih (acc + l) j (by simpa using hj)]
      ring

theorem sum_take_succ_getD (ls : List ℕ) (i : ℕ) (hi : i < ls.length) :
    (ls.take (i + 1)).sum = (ls.take i).sum + ls.getD i 0 := by
  induction ls generalizing i with
  | nil => simp at hi
  | cons l ls ih =>
    cases i with
    | zero => simp
    | succ i =>
      simp only [List.take_succ_cons, List.sum_cons, List.getD_cons_succ]
      rw [ih i (by simpa using hi)]
      ring

theorem getD_map_length (cs : List (List ℤ)) (i : ℕ) :
    (cs.map List.length).getD i 0 = (cs.getD i []).length := by
  induction cs generalizing i with
  | nil => simp
  | cons c cs ih =>
    cases i with
    | zero => simp
    | succ i => simpa using ih i

theorem Sampler.boundaries_length (s : Sampler) :
    s.boundaries.length = s.chunks.length + 1 := by
  simp [Sampler.boundaries, boundariesAux_length]

theorem Sampler.boundaries_getD (s : Sampler) (j : ℕ) (hj : j ≤ s.chunks.length) :
    s.boundaries.getD j 0 = ((s.chunks.map List.length).take j).sum := by
  rw [Sampler.boundaries, boundariesAux_getD 0 _ j (by simpa using hj)]
  omega

theorem Sampler.boundaries_getD_zero (s : Sampler) :
    s.boundaries.getD 0 0 = 0 := by
  rw [s.boundaries_getD 0 (Nat.zero_le _)]; simp

theorem Sampler.boundaries_getD_last (s : Sampler) :
    s.boundaries.getD s.chunks.length 0 = s.total_size := by
  rw [s.boundaries_getD s.chunks.length le_rfl,
    List.take_of_length_le (by simp)]
  rfl

theorem Sampler.boundaries_mono (s : Sampler) (j k : ℕ)
    (hjk : j ≤ k) (hk : k ≤ s.chunks.length) :
    s.boundaries.getD j 0 ≤ s.boundaries.getD k 0 := by
  rw [s.boundaries_getD j (le_trans hjk hk), s.boundaries_getD k hk]
  exact List.Sublist.sum_le_sum (List.take_sublist_take_left _ hjk)
    (fun x _ => Nat.zero_le x)

theorem Sampler.boundaries_getD_succ (s : Sampler) (i : ℕ)
    (hi : i < s.chunks.length) :
    s.boundaries.getD (i + 1) 0
      = s.boundaries.getD i 0 + (s.chunks.getD i []).length := by
  rw [s.boundaries_getD (i + 1) (by omega), s.boundaries_getD i (by omega),
    sum_take_succ_getD _ i (by simpa using hi), getD_map_length]

/-! ### Behaviour of the binary search inside `sample` -/

/-- Instantiation of `binary_search` on the boundary array: with a nonempty
chunk list and a drawn index with `index + length < total_size`, the search
succeeds and brackets `index` between two consecutive boundaries. -/
theorem Sampler.bsearch_spec (s : Sampler) (hne : s.chunks ≠ [])
    (length index : ℕ) (hidx : index + length < s.total_size) :
    ∃ jz : ℤ,
      binary_search (fun j => decide (index < s.boundaries.getD j.toNat 0))
          0 ((s.boundaries.length : ℤ) - 1) = some jz ∧
      1 ≤ jz ∧ jz ≤ (s.chunks.length : ℤ) ∧
      s.boundaries.getD (jz.toNat - 1) 0 ≤ index ∧
      index < s.boundaries.getD jz.toNat 0 := by
  have hn : 0 < s.chunks.length := List.length_pos.mpr hne
  have hhi : ((s.boundaries.length : ℤ) - 1) = (s.chunks.length : ℤ) := by
    rw [s.boundaries_length]; push_cast; ring
  have hflo : (fun j : ℤ => decide (index < s.boundaries.getD j.toNat 0)) 0 = false := by
    simp only [Int.toNat_zero, s.boundaries_getD_zero, decide_eq_false_iff_not, not_lt]
    exact Nat.zero_le index
  have hfhi : (fun j : ℤ => decide (index < s.boundaries.getD j.toNat 0))
      ((s.boundaries.length : ℤ) - 1) = true := by
    rw [hhi]
    simp only [Int.toNat_natCast, decide_eq_true_eq]
    rw [s.boundaries_getD_last]
    omega
  obtain ⟨jz, hbs, hj1, hj2, hj3, hj4⟩ :=
    binary_search_some_spec
      (fun j : ℤ => decide (index < s.boundaries.getD j.toNat 0))
      0 ((s.boundaries.length : ℤ) - 1)
      (by rw [hhi]; exact_mod_cast hn) hflo hfhi
  refine ⟨jz, hbs, by omega, by omega, ?_, by simpa using hj4⟩
  have : (jz - 1).toNat = jz.toNat - 1 := by omega
  simpa [this] using hj3

/-- One pass of the rejection loop: the attempt at a valid drawn `index`
locates the unique chunk `j - 1` whose boundary interval contains `index`
(`j` the smallest boundary index with `boundaries[j] > index`), and accepts
returning the slice iff `boundaries[j] > index + length` (strictly). -/
theorem Sampler.attempt_characterization (s : Sampler) (length index : ℕ)
    (hne : s.chunks ≠ []) (hidx : index + length < s.total_size) :
    ∃ j : ℕ, 1 ≤ j ∧ j ≤ s.chunks.length ∧
      index < s.boundaries.getD j 0 ∧
      (∀ k, k < j → ¬ index < s.boundaries.getD k 0) ∧
      s.sampleAttempt length index =
        (if index + length < s.boundaries.getD j 0 then
          .ok (some (((s.chunks.getD (j - 1) []).drop
            (index - s.boundaries.getD (j - 1) 0)).take length))
        else .ok none) := by
  obtain ⟨jz, hbs, hj1, hj2, hlow, hhigh⟩ := s.bsearch_spec hne length index hidx
  refine ⟨jz.toNat, by omega, by omega, hhigh, ?_, ?_⟩
  · intro k hk hcon
    have hk1 : k ≤ jz.toNat - 1 := by omega
    have := s.boundaries_mono k (jz.toNat - 1) hk1 (by omega)
    omega
  · have hiton : (jz - 1).toNat = jz.toNat - 1 := by omega
    have hsucc : jz.toNat - 1 + 1 = jz.toNat := by omega
    simp only [Sampler.sampleAttempt, hbs, hiton, hsucc]

/-- The rejection loop steps: an accepted attempt returns its slice, a
rejected attempt falls through to the remaining draws. -/
theorem Sampler.sampleLoop_cons (s : Sampler) (length index : ℕ) (rest : List ℕ) :
    (∀ r, s.sampleAttempt length index = .ok (some r) →
      s.sampleLoop length (index :: rest) = .ok (some r)) ∧
    (s.sampleAttempt length index = .ok none →
      s.sampleLoop length (index :: rest) = s.sampleLoop length rest) := by
  constructor
  · intro r hr; simp [Sampler.sampleLoop, hr]
  · intro hr; simp [Sampler.sampleLoop, hr]

/-- An attempt never raises the assertion error (the assert sits before the
loop). -/
theorem Sampler.attempt_ne_assertion (s : Sampler) (length index : ℕ)
    (msg : String) :
    s.sampleAttempt length index ≠ .error (.assertionError msg) := by
  rw [Sampler.sampleAttempt]
  cases hbs : binary_search (fun j => decide (index < s.boundaries.getD j.toNat 0))
      0 ((s.boundaries.length : ℤ) - 1) with
  | none => simp
  | some jz =>
    dsimp only
    split <;> simp

/-- The rejection loop never raises the assertion error. -/
theorem Sampler.sampleLoop_ne_assertion (s : Sampler) (length : ℕ) :
    ∀ (draws : List ℕ) (msg : String),
      s.sampleLoop length draws ≠ .error (.assertionError msg) := by
  intro draws
  induction draws with
  | nil => intro msg h; simp [Sampler.sampleLoop] at h
  | cons d rest ih =>
    intro msg h
    rw [Sampler.sampleLoop] at h
    cases hat : s.sampleAttempt length d with
    | error e =>
      rw [hat] at h
      cases e with
      | assertionError m =>
        exact absurd hat (s.attempt_ne_assertion length d m)
      | typeError =>
        injection h with h'
        cases h'
    | ok o =>
      rw [hat] at h
      cases o with
      | some r => cases h
      | none => exact ih msg h

/-- **C4**: for every predicate `f` that is monotone non-decreasing on
`[lo, hi]`, `binary_search f lo hi` returns `none` if `f lo` is true or
`f hi` is false, and otherwise returns the unique index `j` in `(lo, hi]`
at which `f` flips from false to true. -/
theorem claim_binary_search_flip_point (f : ℤ → Bool) (lo hi : ℤ)
    (hle : lo ≤ hi)
    (mono : ∀ a b, lo ≤ a → a ≤ b → b ≤ hi → f a = true → f b = true) :
    ((f lo = true ∨ f hi = false) → binary_search f lo hi = none) ∧
    (f lo = false → f hi = true →
      ∃ j, binary_search f lo hi = some j ∧ lo < j ∧ j ≤ hi ∧
        f (j - 1) = false ∧ f j = true ∧
        ∀ k, lo < k → k ≤ hi → f (k - 1) = false → f k = true → k = j) := by
  constructor
  · intro h
    exact (binary_search_none_iff f lo hi).mpr h
  · intro hflo hfhi
    have hlt : lo < hi := by
      rcases eq_or_lt_of_le hle with heq | hlt
      · subst heq; rw [hflo] at hfhi; cases hfhi
      · exact hlt
    obtain ⟨j, hbs, h1, h2, h3, h4⟩ := binary_search_some_spec f lo hi hlt hflo hfhi
    exact ⟨j, hbs, h1, h2, h3, h4, fun k hk1 hk2 hk3 hk4 =>
      flip_point_unique f lo hi mono j k h1 h2 h3 h4 hk1 hk2 hk3 hk4⟩

/-- Witness for C4 at the concrete monotone predicate `3 ≤ x` on `[0, 5]`:
the search finds the unique flip point. -/
theorem claim_binary_search_flip_point_witness :
    ((fun x : ℤ => decide (3 ≤ x)) 0 = false) ∧
    ((fun x : ℤ => decide (3 ≤ x)) 5 = true) ∧
    ∃ j, binary_search (fun x : ℤ => decide (3 ≤ x)) 0 5 = some j ∧
      0 < j ∧ j ≤ 5 ∧
      (fun x : ℤ => decide (3 ≤ x)) (j - 1) = false ∧
      (fun x : ℤ => decide (3 ≤ x)) j = true ∧
      ∀ k, 0 < k → k ≤ 5 → (fun x : ℤ => decide (3 ≤ x)) (k - 1) = false →
        (fun x : ℤ => decide (3 ≤ x)) k = true → k = j := by
  refine ⟨by decide, by decide, ?_⟩
  exact (claim_binary_search_flip_point (fun x : ℤ => decide (3 ≤ x)) 0 5
    (by norm_num)
    (fun a b _ hab _ hfa => by
      simp only [decide_eq_true_eq] at *
      omega)).2 (by decide) (by decide)

/-- **C10**: under the constructor invariant and for a drawn index with
`index + length < total_size`, the binary search inside `sample` never
returns `None` (the predicate is false at boundary index 0 and true at the
last boundary), and the subsequent `- 1` and the boundary/chunk accesses at
`i` and `i + 1` are in range. -/
theorem claim_sample_bsearch_in_range (s : Sampler) (length index : ℕ)
    (hne : s.chunks ≠ []) (hidx : index + length < s.total_size) :
    (fun j : ℤ => decide (index < s.boundaries.getD j.toNat 0)) 0 = false ∧
    (fun j : ℤ => decide (index < s.boundaries.getD j.toNat 0))
      ((s.boundaries.length : ℤ) - 1) = true ∧
    binary_search (fun j : ℤ => decide (index < s.boundaries.getD j.toNat 0))
      0 ((s.boundaries.length : ℤ) - 1) ≠ none ∧
    ∃ jz : ℤ,
      binary_search (fun j : ℤ => decide (index < s.boundaries.getD j.toNat 0))
        0 ((s.boundaries.length : ℤ) - 1) = some jz ∧
      1 ≤ jz ∧
      (jz - 1).toNat < s.chunks.length ∧
      (jz - 1).toNat + 1 < s.boundaries.length := by
  obtain ⟨jz, hbs, hj1, hj2, _, _⟩ := s.bsearch_spec hne length index hidx
  have hnone : binary_search (fun j : ℤ => decide (index < s.boundaries.getD j.toNat 0))
      0 ((s.boundaries.length : ℤ) - 1) ≠ none := by rw [hbs]; simp
  have hflo : (fun j : ℤ => decide (index < s.boundaries.getD j.toNat 0)) 0 = false := by
    simp only [Int.toNat_zero, s.boundaries_getD_zero, decide_eq_false_iff_not, not_lt]
    exact Nat.zero_le index
  have hfhi : (fun j : ℤ => decide (index < s.boundaries.getD j.toNat 0))
      ((s.boundaries.length : ℤ) - 1) = true := by
    have hhi : ((s.boundaries.length : ℤ) - 1) = (s.chunks.length : ℤ) := by
      rw [s.boundaries_length]; push_cast; ring
    rw [hhi]
    simp only [Int.toNat_natCast, decide_eq_true_eq]
    rw [s.boundaries_getD_last]
    omega
  refine ⟨hflo, hfhi, hnone, jz, hbs, hj1, ?_, ?_⟩
  · omega
  · rw [s.boundaries_length]; omega

/-- Witness for C10: chunks of sizes 3 and 3, `index = 4`, `length = 1`. -/
theorem claim_sample_bsearch_in_range_witness :
    (Sampler.mk [[1,2,3],[4,5,6]]).chunks ≠ [] ∧
    (4 + 1 : ℕ) < (Sampler.mk [[1,2,3],[4,5,6]]).total_size ∧
    binary_search (fun j : ℤ =>
        decide ((4:ℕ) < (Sampler.mk [[1,2,3],[4,5,6]]).boundaries.getD j.toNat 0))
      0 (((Sampler.mk [[1,2,3],[4,5,6]]).boundaries.length : ℤ) - 1) ≠ none := by
  refine ⟨by simp, by decide, ?_⟩
  exact (claim_sample_bsearch_in_range (Sampler.mk [[1,2,3],[4,5,6]]) 1 4
    (by simp) (by decide)).2.2.1

/-- **C2** (amended): a drawn start index is accepted exactly when
`offsets[j] > index + length` — strictly — where `j` is the smallest
boundary index with `offsets[j] > index`; an accepted draw terminates the
rejection loop with its slice, a draw with `offsets[j] ≤ index + length`
is rejected and the loop falls through to the next draw. -/
theorem claim_sample_accept_iff_strict (s : Sampler) (length index : ℕ)
    (rest : List ℕ) (hne : s.chunks ≠ []) (hidx : index + length < s.total_size) :
    ∃ j : ℕ,
      (index < s.boundaries.getD j 0 ∧
        ∀ k, k < j → ¬ index < s.boundaries.getD k 0) ∧
      ((∃ r, s.sampleAttempt length index = .ok (some r)) ↔
        index + length < s.boundaries.getD j 0) ∧
      (s.sampleAttempt length index = .ok none ↔
        s.boundaries.getD j 0 ≤ index + length) ∧
      (∀ r, s.sampleAttempt length index = .ok (some r) →
        s.sampleLoop length (index :: rest) = .ok (some r)) ∧
      (s.sampleAttempt length index = .ok none →
        s.sampleLoop length (index :: rest) = s.sampleLoop length rest) := by
  obtain ⟨j, _, _, hj3, hj4, hatt⟩ := s.attempt_characterization length index hne hidx
  refine ⟨j, ⟨hj3, hj4⟩, ?_, ?_, (s.sampleLoop_cons length index rest).1,
    (s.sampleLoop_cons length index rest).2⟩
  · constructor
    · rintro ⟨r, hr⟩
      by_contra hle
      rw [hatt, if_neg hle] at hr
      simp at hr
    · intro hgt
      exact ⟨_, by rw [hatt, if_pos hgt]⟩
  · by_cases hacc : index + length < s.boundaries.getD j 0
    · rw [hatt, if_pos hacc]
      constructor
      · intro h; simp at h
      · intro h; exact absurd h (by omega)
    · rw [hatt, if_neg hacc]
      exact ⟨fun _ => by omega, fun _ => rfl⟩

/-- Witness for C2 (amended), chunks of sizes 3 and 3, `index = 0`,
`length = 1`: the attempt is accepted. -/
theorem claim_sample_accept_iff_strict_witness :
    ∃ j : ℕ,
      ((0:ℕ) < (Sampler.mk [[1,2,3],[4,5,6]]).boundaries.getD j 0 ∧
        ∀ k, k < j → ¬ (0:ℕ) < (Sampler.mk [[1,2,3],[4,5,6]]).boundaries.getD k 0) ∧
      ((∃ r, (Sampler.mk [[1,2,3],[4,5,6]]).sampleAttempt 1 0 = .ok (some r)) ↔
        0 + 1 < (Sampler.mk [[1,2,3],[4,5,6]]).boundaries.getD j 0) ∧
      ((Sampler.mk [[1,2,3],[4,5,6]]).sampleAttempt 1 0 = .ok none ↔
        (Sampler.mk [[1,2,3],[4,5,6]]).boundaries.getD j 0 ≤ 0 + 1) ∧
      (∀ r, (Sampler.mk [[1,2,3],[4,5,6]]).sampleAttempt 1 0 = .ok (some r) →
        (Sampler.mk [[1,2,3],[4,5,6]]).sampleLoop 1 [0] = .ok (some r)) ∧
      ((Sampler.mk [[1,2,3],[4,5,6]]).sampleAttempt 1 0 = .ok none →
        (Sampler.mk [[1,2,3],[4,5,6]]).sampleLoop 1 [0] =
          (Sampler.mk [[1,2,3],[4,5,6]]).sampleLoop 1 []) := by
  exact claim_sample_accept_iff_strict (Sampler.mk [[1,2,3],[4,5,6]]) 1 0 []
    (by simp) (by decide)

/-- **C2** counterexample: chunks of sizes 5 and 5 (`offsets = [0, 5, 10]`),
`length = 2`, drawn `index = 3`.  The smallest `j` with `offsets[j] > 3` is
`j = 1`, and `offsets[1] = 5 ≥ 3 + 2`, so by the claim the draw would be
accepted; the code rejects it (`5 > 5` is false). -/
theorem claim_sample_accept_iff_strict_cex :
    (Sampler.mk [[10,11,12,13,14],[20,21,22,23,24]]).boundaries.getD 1 0 = 5 ∧
    ((3:ℕ) < (Sampler.mk [[10,11,12,13,14],[20,21,22,23,24]]).boundaries.getD 1 0) ∧
    (¬ (3:ℕ) < (Sampler.mk [[10,11,12,13,14],[20,21,22,23,24]]).boundaries.getD 0 0) ∧
    (3 + 2 : ℕ) ≤ (Sampler.mk [[10,11,12,13,14],[20,21,22,23,24]]).boundaries.getD 1 0 ∧
    (Sampler.mk [[10,11,12,13,14],[20,21,22,23,24]]).sampleAttempt 2 3 = .ok none := by
  have hb1 : (Sampler.mk [[10,11,12,13,14],[20,21,22,23,24]]).boundaries.getD 1 0 = 5 := by
    decide
  have hb0 : (Sampler.mk [[10,11,12,13,14],[20,21,22,23,24]]).boundaries.getD 0 0 = 0 := by
    decide
  refine ⟨hb1, by omega, by omega, by omega, ?_⟩
  obtain ⟨j, hj1, hj2, hj3, hj4, hatt⟩ :=
    (Sampler.mk [[10,11,12,13,14],[20,21,22,23,24]]).attempt_characterization 2 3
      (by simp) (by decide)
  have hj : j = 1 := by
    by_contra hne1
    have hj2' : j = 2 := by
      have : (Sampler.mk [[10,11,12,13,14],[20,21,22,23,24]]).chunks.length = 2 := by decide
      omega
    have := hj4 1 (by omega)
    rw [hb1] at this
    omega
  subst hj
  rw [hatt, hb1, if_neg (by omega)]

/-- **C6**: every value returned by `sample` is a contiguous slice of
exactly `length` tokens taken from a single chunk. -/
theorem claim_sample_single_chunk (s : Sampler) (length : ℕ) (draws : List ℕ)
    (r : List ℤ) (hne : s.chunks ≠ [])
    (hdraws : ∀ d ∈ draws, d + length < s.total_size)
    (hres : s.sample length draws = .ok (some r)) :
    ∃ i w, i < s.chunks.length ∧ w + length ≤ (s.chunks.getD i []).length ∧
      r = ((s.chunks.getD i []).drop w).take length ∧ r.length = length := by
  have hpre : length < s.total_size / s.chunks.length := by
    by_contra h
    rw [Sampler.sample, if_neg h] at hres
    simp at hres
  rw [Sampler.sample, if_pos hpre] at hres
  clear hpre
  induction draws with
  | nil => simp [Sampler.sampleLoop] at hres
  | cons d rest ih =>
    have hd : d + length < s.total_size := hdraws d (by simp)
    obtain ⟨j, hj1, hj2, hj3, hj4, hatt⟩ := s.attempt_characterization length d hne hd
    by_cases hacc : d + length < s.boundaries.getD j 0
    · rw [if_pos hacc] at hatt
      have hloop := (s.sampleLoop_cons length d rest).1 _ hatt
      rw [hloop] at hres
      simp only [Except.ok.injEq, Option.some.injEq] at hres
      have hlow : s.boundaries.getD (j - 1) 0 ≤ d := by
        have := hj4 (j - 1) (by omega)
        omega
      have hsucc := s.boundaries_getD_succ (j - 1) (by omega)
      rw [show j - 1 + 1 = j by omega] at hsucc
      have hwl : (d - s.boundaries.getD (j - 1) 0) + length
          ≤ (s.chunks.getD (j - 1) []).length := by omega
      refine ⟨j - 1, d - s.boundaries.getD (j - 1) 0, by omega, hwl, hres.symm, ?_⟩
      rw [← hres]
      simp only [List.length_take, List.length_drop]
      omega
    · rw [if_neg hacc] at hatt
      have hloop := (s.sampleLoop_cons length d rest).2 hatt
      rw [hloop] at hres
      exact ih (fun x hx => hdraws x (by simp [hx])) hres

/-- Witness for C6: with chunks of sizes 3 and 3 the draw `index = 0`,
`length = 1` returns the slice `[1]` out of the first chunk. -/
theorem claim_sample_single_chunk_witness :
    ∃ i w, i < (Sampler.mk [[1,2,3],[4,5,6]]).chunks.length ∧
      w + 1 ≤ ((Sampler.mk [[1,2,3],[4,5,6]]).chunks.getD i []).length ∧
      [(1:ℤ)] = (((Sampler.mk [[1,2,3],[4,5,6]]).chunks.getD i []).drop w).take 1 ∧
      [(1:ℤ)].length = 1 := by
  obtain ⟨j, hj1, hj2, hj3, hj4, hatt⟩ :=
    (Sampler.mk [[1,2,3],[4,5,6]]).attempt_characterization 1 0 (by simp) (by decide)
  have hb1 : (Sampler.mk [[1,2,3],[4,5,6]]).boundaries.getD 1 0 = 3 := by decide
  have hj : j = 1 := by
    by_contra hne1
    have hj2' : j = 2 := by
      have : (Sampler.mk [[1,2,3],[4,5,6]]).chunks.length = 2 := by decide
      omega
    have := hj4 1 (by omega)
    rw [hb1] at this
    omega
  subst hj
  have hattempt : (Sampler.mk [[1,2,3],[4,5,6]]).sampleAttempt 1 0 = .ok (some [1]) := by
    rw [hatt, if_pos (by rw [hb1]; omega)]
    have hslice : (((Sampler.mk [[1,2,3],[4,5,6]]).chunks.getD (1 - 1) []).drop
        (0 - (Sampler.mk [[1,2,3],[4,5,6]]).boundaries.getD (1 - 1) 0)).take 1
        = [(1:ℤ)] := by decide
    rw [hslice]
  have hloop := ((Sampler.mk [[1,2,3],[4,5,6]]).sampleLoop_cons 1 0 []).1 _ hattempt
  have hsample : (Sampler.mk [[1,2,3],[4,5,6]]).sample 1 [0] = .ok (some [1]) := by
    rw [Sampler.sample, if_pos (by decide)]
    exact hloop
  exact claim_sample_single_chunk (Sampler.mk [[1,2,3],[4,5,6]]) 1 [0] [1]
    (by simp) (by intro d hd; simp at hd; subst hd; decide) hsample

/-- **C9**: `sample` fails immediately with the descriptive assertion error,
independently of (and before consuming) the random draws, if and only if
`length` is not strictly below `total_size // number_of_chunks`. -/
theorem claim_sample_precondition_fail_fast (s : Sampler) (length : ℕ)
    (_hne : s.chunks ≠ []) :
    (¬ length < s.total_size / s.chunks.length →
      ∀ draws, s.sample length draws = .error (.assertionError
        ("Dataset files are too small to sample " ++ toString length ++
          " tokens at a time"))) ∧
    (length < s.total_size / s.chunks.length →
      ∀ draws msg, s.sample length draws ≠ .error (.assertionError msg)) := by
  constructor
  · intro h draws
    rw [Sampler.sample, if_neg h]
  · intro h draws msg
    rw [Sampler.sample, if_pos h]
    exact s.sampleLoop_ne_assertion length draws msg

/-- Witness for C9: chunks of sizes 3 and 3 (`total_size // chunks = 3`):
`length = 3` trips the assertion, `length = 1` can never produce it. -/
theorem claim_sample_precondition_fail_fast_witness :
    (Sampler.mk [[1,2,3],[4,5,6]]).sample 3 [0] = .error (.assertionError
      ("Dataset files are too small to sample " ++ toString (3:ℕ) ++
        " tokens at a time")) ∧
    (Sampler.mk [[1,2,3],[4,5,6]]).sample 1 [0] ≠ .error (.assertionError "oops") := by
  constructor
  · exact (claim_sample_precondition_fail_fast (Sampler.mk [[1,2,3],[4,5,6]]) 3
      (by simp)).1 (by decide) [0]
  · exact (claim_sample_precondition_fail_fast (Sampler.mk [[1,2,3],[4,5,6]]) 1
      (by simp)).2 (by decide) [0] "oops"

/-! ## Training loop (trainval.py lines 227-276, trainval_adafactor.py lines 239-288)

```python
        avg_loss = (0.0, 0.0)
        val_loss = (0.0, 0.0)
        best_val_loss = 99
        missed_val_checkpoints = 0
        try:
            while counter < stop_after:
                if counter % sample_every == 0:
                    generate_samples()
                batch = [data_sampler.sample(batch_length) for _ in range(batch_size)]
                _, lv = sess.run((opt_apply, loss), feed_dict={context: batch})
                avg_loss = (avg_loss[0] * 0.99 + lv, avg_loss[1] * 0.99 + 1.0)
                if counter % 5 == 0:
                    valacc = sess.run(loss, feed_dict={context: valbatch})
                    val_loss = (val_loss[0] * 0.99 + valacc, val_loss[1] * 0.99 + 1.0)
                    av_val_loss = val_loss[0] / val_loss[1]
                    if counter >= save_every and counter % save_every == 0:
                        if av_val_loss < best_val_loss:
                            save()
                            best_val_loss = av_val_loss
                            missed_val_checkpoints = 0
                        else:
                            missed_val_checkpoints += 1
                    if missed_val_checkpoints > 9:
                        counter = stop_after + 1
                counter += 1
```

(`trainval_adafactor.py`; `trainval.py` is identical except that its
checkpoint gate is the hardcoded
`counter >= 100 and counter % 100 == 0` and its `save_every` parameter is
unused.)  Loss values drawn from the external model (`lv`, `valacc`) are
inputs; `saved` logs the counters at which `save()` ran; `train_steps`
counts optimizer steps (one per loop iteration); sample emission has no
effect on training state and is omitted. -/

structure LoopState where
  counter : ℕ
  avg_num : ℚ
  avg_den : ℚ
  val_num : ℚ
  val_den : ℚ
  best_val_loss : ℚ
  missed_val_checkpoints : ℕ
  saved : List ℕ
  train_steps : ℕ
  deriving DecidableEq, Repr

/-- One iteration of the `trainval_adafactor.py` loop body. -/
def loopBody (save_every stop_after : ℕ) (lv valacc : ℚ) (s : LoopState) :
    LoopState :=
  let s1 : LoopState := { s with
    train_steps := s.train_steps + 1,
    avg_num := s.avg_num * (99/100) + lv,
    avg_den := s.avg_den * (99/100) + 1 }
  if s1.counter % 5 = 0 then
    let val_num := s1.val_num * (99/100) + valacc
    let val_den := s1.val_den * (99/100) + 1
    let av_val_loss := val_num / val_den
    let s2 : LoopState := { s1 with val_num := val_num, val_den := val_den }
    let s3 : LoopState :=
      if save_every ≤ s2.counter ∧ s2.counter % save_every = 0 then
        if av_val_loss < s2.best_val_loss then
          { s2 with saved := s2.counter :: s2.saved,
                    best_val_loss := av_val_loss,
                    missed_val_checkpoints := 0 }
        else
          { s2 with missed_val_checkpoints := s2.missed_val_checkpoints + 1 }
      else s2
    let s4 : LoopState :=
      if 9 < s3.missed_val_checkpoints then { s3 with counter := stop_after + 1 }
      else s3
    { s4 with counter := s4.counter + 1 }
  else
    { s1 with counter := s1.counter + 1 }

/-- One iteration of the `trainval.py` loop body (hardcoded cadence 100;
the `save_every` parameter does not occur in this loop). -/
def loopBody_tv (stop_after : ℕ) (lv valacc : ℚ) (s : LoopState) : LoopState :=
  let s1 : LoopState := { s with
    train_steps := s.train_steps + 1,
    avg_num := s.avg_num * (99/100) + lv,
    avg_den := s.avg_den * (99/100) + 1 }
  if s1.counter % 5 = 0 then
    let val_num := s1.val_num * (99/100) + valacc
    let val_den := s1.val_den * (99/100) + 1
    let av_val_loss := val_num / val_den
    let s2 : LoopState := { s1 with val_num := val_num, val_den := val_den }
    let s3 : LoopState :=
      if 100 ≤ s2.counter ∧ s2.counter % 100 = 0 then
        if av_val_loss < s2.best_val_loss then
          { s2 with saved := s2.counter :: s2.saved,
                    best_val_loss := av_val_loss,
                    missed_val_checkpoints := 0 }
        else
          { s2 with missed_val_checkpoints := s2.missed_val_checkpoints + 1 }
      else s2
    let s4 : LoopState :=
      if 9 < s3.missed_val_checkpoints then { s3 with counter := stop_after + 1 }
      else s3
    { s4 with counter := s4.counter + 1 }
  else
    { s1 with counter := s1.counter + 1 }

/-- The `while counter < stop_after` loop (`trainval_adafactor.py`), with
per-counter loss streams `lvs`/`vals` and explicit fuel. -/
def runLoop (save_every stop_after : ℕ) (lvs vals : ℕ → ℚ) :
    ℕ → LoopState → LoopState
  | 0, s => s
  | fuel + 1, s =>
    if s.counter < stop_after then
      runLoop save_every stop_after lvs vals fuel
        (loopBody save_every stop_after (lvs s.counter) (vals s.counter) s)
    else s

/-- The `while counter < stop_after` loop of `trainval.py`. -/
def runLoop_tv (stop_after : ℕ) (lvs vals : ℕ → ℚ) :
    ℕ → LoopState → LoopState
  | 0, s => s
  | fuel + 1, s =>
    if s.counter < stop_after then
      runLoop_tv stop_after lvs vals fuel
        (loopBody_tv stop_after (lvs s.counter) (vals s.counter) s)
    else s

/-- Once the counter is at or past the budget the loop does nothing. -/
theorem runLoop_frozen (save_every stop_after : ℕ) (lvs vals : ℕ → ℚ)
    (fuel : ℕ) (s : LoopState) (h : ¬ s.counter < stop_after) :
    runLoop save_every stop_after lvs vals fuel s = s := by
  cases fuel <;> simp [runLoop, h]

/-- Once the counter is at or past the budget the `trainval.py` loop does
nothing. -/
theorem runLoop_tv_frozen (stop_after : ℕ) (lvs vals : ℕ → ℚ)
    (fuel : ℕ) (s : LoopState) (h : ¬ s.counter < stop_after) :
    runLoop_tv stop_after lvs vals fuel s = s := by
  cases fuel <;> simp [runLoop_tv, h]

/-- The code's gate `save_every ≤ c ∧ c % save_every = 0` says exactly that
`c` is a positive multiple of `save_every`. -/
theorem gate_iff_positive_multiple (se c : ℕ) (hse : 1 ≤ se) :
    (se ≤ c ∧ c % se = 0) ↔ (0 < c ∧ se ∣ c) := by
  constructor
  · rintro ⟨h1, h2⟩
    exact ⟨by omega, Nat.dvd_of_mod_eq_zero h2⟩
  · rintro ⟨h1, h2⟩
    obtain ⟨k, rfl⟩ := h2
    have hk : 1 ≤ k := Nat.pos_of_ne_zero (fun h => by subst h; simp at h1)
    constructor
    · calc se = se * 1 := (Nat.mul_one se).symm
        _ ≤ se * k := Nat.mul_le_mul_left se hk
    · exact Nat.mul_mod_right se k

/-! ### Branch characterizations of the loop bodies -/

theorem loopBody_not_val (sp st : ℕ) (lv va : ℚ) (s : LoopState)
    (h : ¬ s.counter % 5 = 0) :
    loopBody sp st lv va s =
      { s with counter := s.counter + 1,
               train_steps := s.train_steps + 1,
               avg_num := s.avg_num * (99/100) + lv,
               avg_den := s.avg_den * (99/100) + 1 } := by
  simp [loopBody, h]

theorem loopBody_val_nogate (sp st : ℕ) (lv va : ℚ) (s : LoopState)
    (h : s.counter % 5 = 0) (hgate : ¬ (sp ≤ s.counter ∧ s.counter % sp = 0))
    (h9 : ¬ 9 < s.missed_val_checkpoints) :
    loopBody sp st lv va s =
      { s with counter := s.counter + 1,
               train_steps := s.train_steps + 1,
               avg_num := s.avg_num * (99/100) + lv,
               avg_den := s.avg_den * (99/100) + 1,
               val_num := s.val_num * (99/100) + va,
               val_den := s.val_den * (99/100) + 1 } := by
  simp [loopBody, h, hgate, h9]

theorem loopBody_val_nogate_stop (sp st : ℕ) (lv va : ℚ) (s : LoopState)
    (h : s.counter % 5 = 0) (hgate : ¬ (sp ≤ s.counter ∧ s.counter % sp = 0))
    (h9 : 9 < s.missed_val_checkpoints) :
    loopBody sp st lv va s =
      { s with counter := st + 1 + 1,
               train_steps := s.train_steps + 1,
               avg_num := s.avg_num * (99/100) + lv,
               avg_den := s.avg_den * (99/100) + 1,
               val_num := s.val_num * (99/100) + va,
               val_den := s.val_den * (99/100) + 1 } := by
  simp [loopBody, h, hgate, h9]

theorem loopBody_val_gate_improve (sp st : ℕ) (lv va : ℚ) (s : LoopState)
    (h : s.counter % 5 = 0) (hgate : sp ≤ s.counter ∧ s.counter % sp = 0)
    (himp : (s.val_num * (99/100) + va) / (s.val_den * (99/100) + 1)
      < s.best_val_loss) :
    loopBody sp st lv va s =
      { s with counter := s.counter + 1,
               train_steps := s.train_steps + 1,
               avg_num := s.avg_num * (99/100) + lv,
               avg_den := s.avg_den * (99/100) + 1,
               val_num := s.val_num * (99/100) + va,
               val_den := s.val_den * (99/100) + 1,
               best_val_loss := (s.val_num * (99/100) + va)
                 / (s.val_den * (99/100) + 1),
               missed_val_checkpoints := 0,
               saved := s.counter :: s.saved } := by
  simp [loopBody, h, hgate, himp]

theorem loopBody_val_gate_miss (sp st : ℕ) (lv va : ℚ) (s : LoopState)
    (h : s.counter % 5 = 0) (hgate : sp ≤ s.counter ∧ s.counter % sp = 0)
    (himp : ¬ (s.val_num * (99/100) + va) / (s.val_den * (99/100) + 1)
      < s.best_val_loss)
    (h9 : s.missed_val_checkpoints + 1 ≤ 9) :
    loopBody sp st lv va s =
      { s with counter := s.counter + 1,
               train_steps := s.train_steps + 1,
               avg_num := s.avg_num * (99/100) + lv,
               avg_den := s.avg_den * (99/100) + 1,
               val_num := s.val_num * (99/100) + va,
               val_den := s.val_den * (99/100) + 1,
               missed_val_checkpoints := s.missed_val_checkpoints + 1 } := by
  have h9' : ¬ 9 < s.missed_val_checkpoints + 1 := by omega
  simp [loopBody, h, hgate, himp, h9']

theorem loopBody_val_gate_miss_stop (sp st : ℕ) (lv va : ℚ) (s : LoopState)
    (h : s.counter % 5 = 0) (hgate : sp ≤ s.counter ∧ s.counter % sp = 0)
    (himp : ¬ (s.val_num * (99/100) + va) / (s.val_den * (99/100) + 1)
      < s.best_val_loss)
    (h9 : 9 < s.missed_val_checkpoints + 1) :
    loopBody sp st lv va s =
      { s with counter := st + 1 + 1,
               train_steps := s.train_steps + 1,
               avg_num := s.avg_num * (99/100) + lv,
               avg_den := s.avg_den * (99/100) + 1,
               val_num := s.val_num * (99/100) + va,
               val_den := s.val_den * (99/100) + 1,
               missed_val_checkpoints := s.missed_val_checkpoints + 1 } := by
  simp [loopBody, h, hgate, himp, h9]

theorem loopBody_tv_not_val (st : ℕ) (lv va : ℚ) (s : LoopState)
    (h : ¬ s.counter % 5 = 0) :
    loopBody_tv st lv va s =
      { s with counter := s.counter + 1,
               train_steps := s.train_steps + 1,
               avg_num := s.avg_num * (99/100) + lv,
               avg_den := s.avg_den * (99/100) + 1 } := by
  simp [loopBody_tv, h]

theorem loopBody_tv_val_nogate (st : ℕ) (lv va : ℚ) (s : LoopState)
    (h : s.counter % 5 = 0) (hgate : ¬ (100 ≤ s.counter ∧ s.counter % 100 = 0))
    (h9 : ¬ 9 < s.missed_val_checkpoints) :
    loopBody_tv st lv va s =
      { s with counter := s.counter + 1,
               train_steps := s.train_steps + 1,
               avg_num := s.avg_num * (99/100) + lv,
               avg_den := s.avg_den * (99/100) + 1,
               val_num := s.val_num * (99/100) + va,
               val_den := s.val_den * (99/100) + 1 } := by
  simp [loopBody_tv, h, hgate, h9]

theorem loopBody_tv_val_nogate_stop (st : ℕ) (lv va : ℚ) (s : LoopState)
    (h : s.counter % 5 = 0) (hgate : ¬ (100 ≤ s.counter ∧ s.counter % 100 = 0))
    (h9 : 9 < s.missed_val_checkpoints) :
    loopBody_tv st lv va s =
      { s with counter := st + 1 + 1,
               train_steps := s.train_steps + 1,
               avg_num := s.avg_num * (99/100) + lv,
               avg_den := s.avg_den * (99/100) + 1,
               val_num := s.val_num * (99/100) + va,
               val_den := s.val_den * (99/100) + 1 } := by
  simp [loopBody_tv, h, hgate, h9]

theorem loopBody_tv_val_gate_improve (st : ℕ) (lv va : ℚ) (s : LoopState)
    (h : s.counter % 5 = 0) (hgate : 100 ≤ s.counter ∧ s.counter % 100 = 0)
    (himp : (s.val_num * (99/100) + va) / (s.val_den * (99/100) + 1)
      < s.best_val_loss) :
    loopBody_tv st lv va s =
      { s with counter := s.counter + 1,
               train_steps := s.train_steps + 1,
               avg_num := s.avg_num * (99/100) + lv,
               avg_den := s.avg_den * (99/100) + 1,
               val_num := s.val_num * (99/100) + va,
               val_den := s.val_den * (99/100) + 1,
               best_val_loss := (s.val_num * (99/100) + va)
                 / (s.val_den * (99/100) + 1),
               missed_val_checkpoints := 0,
               saved := s.counter :: s.saved } := by
  simp [loopBody_tv, h, hgate, himp]

theorem loopBody_tv_val_gate_miss (st : ℕ) (lv va : ℚ) (s : LoopState)
    (h : s.counter % 5 = 0) (hgate : 100 ≤ s.counter ∧ s.counter % 100 = 0)
    (himp : ¬ (s.val_num * (99/100) + va) / (s.val_den * (99/100) + 1)
      < s.best_val_loss)
    (h9 : s.missed_val_checkpoints + 1 ≤ 9) :
    loopBody_tv st lv va s =
      { s with counter := s.counter + 1,
               train_steps := s.train_steps + 1,
               avg_num := s.avg_num * (99/100) + lv,
               avg_den := s.avg_den * (99/100) + 1,
               val_num := s.val_num * (99/100) + va,
               val_den := s.val_den * (99/100) + 1,
               missed_val_checkpoints := s.missed_val_checkpoints + 1 } := by
  have h9' : ¬ 9 < s.missed_val_checkpoints + 1 := by omega
  simp [loopBody_tv, h, hgate, himp, h9']

theorem loopBody_tv_val_gate_miss_stop (st : ℕ) (lv va : ℚ) (s : LoopState)
    (h : s.counter % 5 = 0) (hgate : 100 ≤ s.counter ∧ s.counter % 100 = 0)
    (himp : ¬ (s.val_num * (99/100) + va) / (s.val_den * (99/100) + 1)
      < s.best_val_loss)
    (h9 : 9 < s.missed_val_checkpoints + 1) :
    loopBody_tv st lv va s =
      { s with counter := st + 1 + 1,
               train_steps := s.train_steps + 1,
               avg_num := s.avg_num * (99/100) + lv,
               avg_den := s.avg_den * (99/100) + 1,
               val_num := s.val_num * (99/100) + va,
               val_den := s.val_den * (99/100) + 1,
               missed_val_checkpoints := s.missed_val_checkpoints + 1 } := by
  simp [loopBody_tv, h, hgate, himp, h9]

/-- **C1** (amended): in `trainval_adafactor.py` the checkpoint decision
(save and reset `missed_val_checkpoints` on strict improvement of the EMA
validation loss, else increment) is evaluated exactly on iterations where
`counter` is a positive multiple of `save_every` that is also a validation
iteration (`counter % 5 = 0`); in `trainval.py` the cadence constant is the
hardcoded 100, not the `save_every` parameter.  On no other iteration are
`saved`, `missed_val_checkpoints` or `best_val_loss` changed. -/
theorem claim_checkpoint_cadence (save_every stop_after : ℕ)
    (hse : 1 ≤ save_every) (lv valacc : ℚ) (s : LoopState) :
    (¬ (s.counter % 5 = 0 ∧ 0 < s.counter ∧ save_every ∣ s.counter) →
      (loopBody save_every stop_after lv valacc s).saved = s.saved ∧
      (loopBody save_every stop_after lv valacc s).missed_val_checkpoints
        = s.missed_val_checkpoints ∧
      (loopBody save_every stop_after lv valacc s).best_val_loss
        = s.best_val_loss) ∧
    (s.counter % 5 = 0 ∧ 0 < s.counter ∧ save_every ∣ s.counter →
      ((s.val_num * (99/100) + valacc) / (s.val_den * (99/100) + 1)
          < s.best_val_loss →
        (loopBody save_every stop_after lv valacc s).saved
          = s.counter :: s.saved ∧
        (loopBody save_every stop_after lv valacc s).missed_val_checkpoints
          = 0 ∧
        (loopBody save_every stop_after lv valacc s).best_val_loss
          = (s.val_num * (99/100) + valacc) / (s.val_den * (99/100) + 1)) ∧
      (¬ (s.val_num * (99/100) + valacc) / (s.val_den * (99/100) + 1)
          < s.best_val_loss →
        (loopBody save_every stop_after lv valacc s).saved = s.saved ∧
        (loopBody save_every stop_after lv valacc s).missed_val_checkpoints
          = s.missed_val_checkpoints + 1 ∧
        (loopBody save_every stop_after lv valacc s).best_val_loss
          = s.best_val_loss)) ∧
    (¬ (s.counter % 5 = 0 ∧ 0 < s.counter ∧ 100 ∣ s.counter) →
      (loopBody_tv stop_after lv valacc s).saved = s.saved ∧
      (loopBody_tv stop_after lv valacc s).missed_val_checkpoints
        = s.missed_val_checkpoints ∧
      (loopBody_tv stop_after lv valacc s).best_val_loss = s.best_val_loss) ∧
    (s.counter % 5 = 0 ∧ 0 < s.counter ∧ 100 ∣ s.counter →
      ((s.val_num * (99/100) + valacc) / (s.val_den * (99/100) + 1)
          < s.best_val_loss →
        (loopBody_tv stop_after lv valacc s).saved = s.counter :: s.saved ∧
        (loopBody_tv stop_after lv valacc s).missed_val_checkpoints = 0 ∧
        (loopBody_tv stop_after lv valacc s).best_val_loss
          = (s.val_num * (99/100) + valacc) / (s.val_den * (99/100) + 1)) ∧
      (¬ (s.val_num * (99/100) + valacc) / (s.val_den * (99/100) + 1)
          < s.best_val_loss →
        (loopBody_tv stop_after lv valacc s).saved = s.saved ∧
        (loopBody_tv stop_after lv valacc s).missed_val_checkpoints
          = s.missed_val_checkpoints + 1 ∧
        (loopBody_tv stop_after lv valacc s).best_val_loss
          = s.best_val_loss)) := by
  refine ⟨?_, ?_, ?_, ?_⟩
  · intro hno
    by_cases hval : s.counter % 5 = 0
    · have hgate : ¬ (save_every ≤ s.counter ∧ s.counter % save_every = 0) := by
        rw [gate_iff_positive_multiple save_every s.counter hse]
        intro hg
        exact hno ⟨hval, hg⟩
      by_cases h9 : 9 < s.missed_val_checkpoints
      · rw [loopBody_val_nogate_stop save_every stop_after lv valacc s hval hgate h9]
        exact ⟨rfl, rfl, rfl⟩
      · rw [loopBody_val_nogate save_every stop_after lv valacc s hval hgate h9]
        exact ⟨rfl, rfl, rfl⟩
    · rw [loopBody_not_val save_every stop_after lv valacc s hval]
      exact ⟨rfl, rfl, rfl⟩
  · rintro ⟨hval, hpos, hdvd⟩
    have hgate : save_every ≤ s.counter ∧ s.counter % save_every = 0 :=
      (gate_iff_positive_multiple save_every s.counter hse).mpr ⟨hpos, hdvd⟩
    constructor
    · intro himp
      rw [loopBody_val_gate_improve save_every stop_after lv valacc s hval hgate himp]
      exact ⟨rfl, rfl, rfl⟩
    · intro himp
      by_cases h9 : 9 < s.missed_val_checkpoints + 1
      · rw [loopBody_val_gate_miss_stop save_every stop_after lv valacc s
          hval hgate himp h9]
        exact ⟨rfl, rfl, rfl⟩
      · rw [loopBody_val_gate_miss save_every stop_after lv valacc s
          hval hgate himp (by omega)]
        exact ⟨rfl, rfl, rfl⟩
  · intro hno
    by_cases hval : s.counter % 5 = 0
    · have hgate : ¬ (100 ≤ s.counter ∧ s.counter % 100 = 0) := by
        rw [gate_iff_positive_multiple 100 s.counter (by omega)]
        intro hg
        exact hno ⟨hval, hg⟩
      by_cases h9 : 9 < s.missed_val_checkpoints
      · rw [loopBody_tv_val_nogate_stop stop_after lv valacc s hval hgate h9]
        exact ⟨rfl, rfl, rfl⟩
      · rw [loopBody_tv_val_nogate stop_after lv valacc s hval hgate h9]
        exact ⟨rfl, rfl, rfl⟩
    · rw [loopBody_tv_not_val stop_after lv valacc s hval]
      exact ⟨rfl, rfl, rfl⟩
  · rintro ⟨hval, hpos, hdvd⟩
    have hgate : 100 ≤ s.counter ∧ s.counter % 100 = 0 :=
      (gate_iff_positive_multiple 100 s.counter (by omega)).mpr ⟨hpos, hdvd⟩
    constructor
    · intro himp
      rw [loopBody_tv_val_gate_improve stop_after lv valacc s hval hgate himp]
      exact ⟨rfl, rfl, rfl⟩
    · intro himp
      by_cases h9 : 9 < s.missed_val_checkpoints + 1
      · rw [loopBody_tv_val_gate_miss_stop stop_after lv valacc s hval hgate himp h9]
        exact ⟨rfl, rfl, rfl⟩
      · rw [loopBody_tv_val_gate_miss stop_after lv valacc s hval hgate himp (by omega)]
        exact ⟨rfl, rfl, rfl⟩

/-- Witness for C1 (amended): `save_every = 10`, `counter = 20` — the
adafactor loop saves at the improving checkpoint check; the `trainval.py`
loop does not touch the checkpoint state at `counter = 20` since `20` is
not a positive multiple of 100. -/
theorem claim_checkpoint_cadence_witness :
    (loopBody 10 1000 1 1 ⟨20, 0, 0, 0, 0, 99, 0, [], 0⟩).saved = [20] ∧
    (loopBody_tv 1000 1 1 ⟨20, 0, 0, 0, 0, 99, 0, [], 0⟩).saved = [] := by
  constructor
  · exact ((claim_checkpoint_cadence 10 1000 (by norm_num) 1 1
      ⟨20, 0, 0, 0, 0, 99, 0, [], 0⟩).2.1 (by decide) |>.1 (by norm_num)).1
  · exact ((claim_checkpoint_cadence 10 1000 (by norm_num) 1 1
      ⟨20, 0, 0, 0, 0, 99, 0, [], 0⟩).2.2.1 (by decide)).1

/-- **C1** counterexample: the claim, read against `trainval.py` (whose
`save_every` parameter defaults to 1000 and never occurs in the loop),
fails at `counter = 100`: a checkpoint is saved there although 100 is not a
positive multiple of `save_every = 1000`. -/
theorem claim_checkpoint_cadence_cex :
    ¬ (1000 ∣ 100) ∧
    (loopBody_tv 100000 1 1 ⟨100, 0, 0, 0, 0, 99, 0, [], 0⟩).saved = [100] := by
  refine ⟨by decide, ?_⟩
  rw [loopBody_tv_val_gate_improve 100000 1 1 ⟨100, 0, 0, 0, 0, 99, 0, [], 0⟩
    (by decide) (by decide) (by norm_num)]

/-- **C8**: at any validation iteration on which (after the checkpoint
decision) `missed_val_checkpoints` exceeds 9, the loop sets the counter to
`stop_after + 1` (observed as `stop_after + 2` after the trailing
increment), so the whole loop freezes — no further training step runs; in
particular the 10th consecutive non-improving checkpoint evaluation
triggers this immediately.  Both loop variants behave identically. -/
theorem claim_early_stop_immediate (save_every stop_after : ℕ) (lv valacc : ℚ)
    (s : LoopState) (hval : s.counter % 5 = 0) :
    (9 < (loopBody save_every stop_after lv valacc s).missed_val_checkpoints →
      (loopBody save_every stop_after lv valacc s).counter = stop_after + 2 ∧
      stop_after < (loopBody save_every stop_after lv valacc s).counter ∧
      ∀ (lvs vals : ℕ → ℚ) (fuel : ℕ),
        runLoop save_every stop_after lvs vals fuel
            (loopBody save_every stop_after lv valacc s)
          = loopBody save_every stop_after lv valacc s) ∧
    (s.missed_val_checkpoints = 9 →
      save_every ≤ s.counter → s.counter % save_every = 0 →
      ¬ (s.val_num * (99/100) + valacc) / (s.val_den * (99/100) + 1)
        < s.best_val_loss →
      (loopBody save_every stop_after lv valacc s).missed_val_checkpoints = 10 ∧
      (loopBody save_every stop_after lv valacc s).counter = stop_after + 2) ∧
    (9 < (loopBody_tv stop_after lv valacc s).missed_val_checkpoints →
      (loopBody_tv stop_after lv valacc s).counter = stop_after + 2 ∧
      ∀ (lvs vals : ℕ → ℚ) (fuel : ℕ),
        runLoop_tv stop_after lvs vals fuel (loopBody_tv stop_after lv valacc s)
          = loopBody_tv stop_after lv valacc s) := by
  refine ⟨?_, ?_, ?_⟩
  · intro h9
    by_cases hgate : save_every ≤ s.counter ∧ s.counter % save_every = 0
    · by_cases himp : (s.val_num * (99/100) + valacc) / (s.val_den * (99/100) + 1)
          < s.best_val_loss
      · rw [loopBody_val_gate_improve save_every stop_after lv valacc s
          hval hgate himp] at h9
        simp at h9
      · have h9' : 9 < s.missed_val_checkpoints + 1 := by
          by_contra hc
          rw [loopBody_val_gate_miss save_every stop_after lv valacc s
            hval hgate himp (by omega)] at h9
          simp at h9
          omega
        have hbody := loopBody_val_gate_miss_stop save_every stop_after lv valacc s
          hval hgate himp h9'
        rw [hbody]
        refine ⟨show stop_after + 1 + 1 = stop_after + 2 by omega,
          show stop_after < stop_after + 1 + 1 by omega,
          fun lvs vals fuel => runLoop_frozen save_every stop_after lvs vals fuel _
            (show ¬ stop_after + 1 + 1 < stop_after by omega)⟩
    · have h9' : 9 < s.missed_val_checkpoints := by
        by_contra hc
        rw [loopBody_val_nogate save_every stop_after lv valacc s
          hval hgate hc] at h9
        simp at h9
        omega
      have hbody := loopBody_val_nogate_stop save_every stop_after lv valacc s
        hval hgate h9'
      rw [hbody]
      refine ⟨show stop_after + 1 + 1 = stop_after + 2 by omega,
        show stop_after < stop_after + 1 + 1 by omega,
        fun lvs vals fuel => runLoop_frozen save_every stop_after lvs vals fuel _
          (show ¬ stop_after + 1 + 1 < stop_after by omega)⟩
  · intro hm9 hg1 hg2 himp
    have hbody := loopBody_val_gate_miss_stop save_every stop_after lv valacc s
      hval ⟨hg1, hg2⟩ himp (by omega)
    rw [hbody]
    exact ⟨show s.missed_val_checkpoints + 1 = 10 by omega,
      show stop_after + 1 + 1 = stop_after + 2 by omega⟩
  · intro h9
    by_cases hgate : 100 ≤ s.counter ∧ s.counter % 100 = 0
    · by_cases himp : (s.val_num * (99/100) + valacc) / (s.val_den * (99/100) + 1)
          < s.best_val_loss
      · rw [loopBody_tv_val_gate_improve stop_after lv valacc s
          hval hgate himp] at h9
        simp at h9
      · have h9' : 9 < s.missed_val_checkpoints + 1 := by
          by_contra hc
          rw [loopBody_tv_val_gate_miss stop_after lv valacc s
            hval hgate himp (by omega)] at h9
          simp at h9
          omega
        have hbody := loopBody_tv_val_gate_miss_stop stop_after lv valacc s
          hval hgate himp h9'
        rw [hbody]
        refine ⟨show stop_after + 1 + 1 = stop_after + 2 by omega,
          fun lvs vals fuel => runLoop_tv_frozen stop_after lvs vals fuel _
            (show ¬ stop_after + 1 + 1 < stop_after by omega)⟩
    · have h9' : 9 < s.missed_val_checkpoints := by
        by_contra hc
        rw [loopBody_tv_val_nogate stop_after lv valacc s hval hgate hc] at h9
        simp at h9
        omega
      have hbody := loopBody_tv_val_nogate_stop stop_after lv valacc s hval hgate h9'
      rw [hbody]
      refine ⟨show stop_after + 1 + 1 = stop_after + 2 by omega,
        fun lvs vals fuel => runLoop_tv_frozen stop_after lvs vals fuel _
          (show ¬ stop_after + 1 + 1 < stop_after by omega)⟩

/-- Witness for C8: `missed_val_checkpoints = 9`, a non-improving
checkpoint evaluation at `counter = 100` with `save_every = 100`,
`stop_after = 1000`: the miss counter reaches 10 and the counter jumps to
1002, past the budget. -/
theorem claim_early_stop_immediate_witness :
    (loopBody 100 1000 1 5 ⟨100, 0, 0, 0, 0, 1, 9, [], 0⟩).missed_val_checkpoints
      = 10 ∧
    (loopBody 100 1000 1 5 ⟨100, 0, 0, 0, 0, 1, 9, [], 0⟩).counter = 1002 := by
  exact (claim_early_stop_immediate 100 1000 1 5 ⟨100, 0, 0, 0, 0, 1, 9, [], 0⟩
    (by decide)).2.1 rfl (by decide) (by decide) (by norm_num)

/-! ## AdafactorOptimizer (trainval_adafactor.py lines 296-532)

Tensors are lists (vectors) and lists of lists (matrices) over `ℝ`; shapes
are lists of dimensions.  `tf.reduce_mean` is sum over count,
`reduce_rms x = sqrt(mean(x²))` (line 531), `tf.rsqrt v = (sqrt v)⁻¹`.
Python float arithmetic is idealized as exact real arithmetic. -/

/-- Lines 403-411: use a factored estimator iff factoring is on and
the rank is at least 2. -/
def should_use_factored_second_moment_estimate (factored : Bool)
    (shape : List ℕ) : Bool :=
  factored && decide (2 ≤ shape.length)

inductive SlotShapes where
  | factoredSlots (vr vc : List ℕ)
  | fullSlot (v : List ℕ)
  deriving DecidableEq, Repr

/-- Number of auxiliary second-moment scalars held by a slot. -/
def SlotShapes.auxScalarCount : SlotShapes → ℕ
  | .factoredSlots vr vc => vr.prod + vc.prod
  | .fullSlot v => v.prod

structure CreatedSlots where
  m : Option (List ℕ)
  second : SlotShapes
  deriving DecidableEq, Repr

/-- Lines 413-425: slot creation for one variable.
```python
    def _create_slots(self, var_list):
        for var in var_list:
            shape = var.get_shape().as_list()
            if self._beta1:
                self._zeros_slot(var, "m", self._name)
            if self._should_use_factored_second_moment_estimate(shape):
                r_val = tf.zeros(shape[:-1], dtype=tf.float32)
                c_val = tf.zeros(shape[:-2] + shape[-1:], dtype=tf.float32)
                self._get_or_make_slot(var, r_val, "vr", self._name)
                self._get_or_make_slot(var, c_val, "vc", self._name)
            else:
                v_val = tf.zeros(shape, dtype=tf.float32)
                self._get_or_make_slot(var, v_val, "v", self._name)
```
`shape[:-1]` is `take (n-1)`, `shape[:-2] + shape[-1:]` is
`take (n-2) ++ drop (n-1)`. -/
def create_slots (beta1 : ℚ) (factored : Bool) (shape : List ℕ) : CreatedSlots :=
  { m := if beta1 ≠ 0 then some shape else none,
    second :=
      if should_use_factored_second_moment_estimate factored shape then
        .factoredSlots (shape.take (shape.length - 1))
          (shape.take (shape.length - 2) ++ shape.drop (shape.length - 1))
      else
        .fullSlot shape }

noncomputable def reduce_mean (l : List ℝ) : ℝ := l.sum / l.length

/-- Line 531-532: `reduce_rms(x) = sqrt(reduce_mean(square(x)))`. -/
noncomputable def reduce_rms (x : List ℝ) : ℝ :=
  Real.sqrt (reduce_mean (x.map (fun v => v ^ 2)))

/-- Lines 493-495: the update-clipping step
`x /= maximum(1.0, reduce_rms(x) / clipping_threshold)`. -/
noncomputable def clip_update (clipping_threshold : ℝ) (x : List ℝ) : List ℝ :=
  let clipping_denom := max 1 (reduce_rms x / clipping_threshold)
  x.map (fun v => v / clipping_denom)

structure DenseUpdate where
  decay_rate : ℝ
  update_scale : ℝ
  mixing_rate : ℝ
  new_v : List ℝ
  new_m : List ℝ
  new_val : List ℝ

/-- `_resource_apply_dense` (lines 451-506), non-factored branch, for a
rank-1 variable.  `decay_rate0` is the scheduled decay rate
(`self._decay_rate`), `grad`/`var`/`v`/`m` the gradient, variable,
second-moment slot and momentum slot.  The two `+ grad_squared_mean * 1e-30`
additions are the code's anti-XLA-fusion HACK (lines 463-469), applied to
`decay_rate` and `update_scale` before `mixing_rate = 1.0 - decay_rate`. -/
noncomputable def resource_apply_dense_full
    (decay_rate0 learning_rate beta1 : ℝ) (multiply_by_parameter_scale : Bool)
    (clipping_threshold : Option ℝ) (epsilon1 epsilon2 : ℝ)
    (grad var v m : List ℝ) : DenseUpdate :=
  let grad_squared := grad.map (fun g => g ^ 2 + epsilon1)
  let grad_squared_mean := reduce_mean grad_squared
  let update_scale0 := learning_rate
  let update_scale1 :=
    if multiply_by_parameter_scale then
      update_scale0 * max (reduce_rms var) epsilon2
    else update_scale0
  let decay_rate := decay_rate0 + grad_squared_mean * (1 / 10 ^ 30)
  let update_scale := update_scale1 + grad_squared_mean * (1 / 10 ^ 30)
  let mixing_rate := 1 - decay_rate
  let new_v := (v.zip grad_squared).map
    (fun p => decay_rate * p.1 + mixing_rate * p.2)
  let x0 := (grad.zip new_v).map (fun p => p.1 * (Real.sqrt p.2)⁻¹)
  let x := match clipping_threshold with
    | some ct => clip_update ct x0
    | none => x0
  let subtrahend0 := x.map (fun xi => update_scale * xi)
  let new_m :=
    if beta1 = 0 then m
    else (m.zip subtrahend0).map (fun p => beta1 * p.1 + (1 - beta1) * p.2)
  let subtrahend := if beta1 = 0 then subtrahend0 else new_m
  { decay_rate := decay_rate, update_scale := update_scale,
    mixing_rate := mixing_rate, new_v := new_v, new_m := new_m,
    new_val := (var.zip subtrahend).map (fun p => p.1 - p.2) }

structure FactoredUpdate where
  decay_rate : ℝ
  update_scale : ℝ
  mixing_rate : ℝ
  new_vr : List ℝ
  new_vc : List ℝ
  new_m : List (List ℝ)
  new_val : List (List ℝ)

/-- `_resource_apply_dense` (lines 451-506), factored branch, for a rank-2
variable (matrices as lists of rows).  `reduce_mean(grad_squared, -1)` is
the per-row mean, `reduce_mean(grad_squared, -2)` the per-column mean,
`x = grad * expand_dims(r_factor, -1) * expand_dims(c_factor, -2)` the
entrywise product `grad[i][j] * r_factor[i] * c_factor[j]`. -/
noncomputable def resource_apply_dense_factored
    (decay_rate0 learning_rate beta1 : ℝ) (multiply_by_parameter_scale : Bool)
    (clipping_threshold : Option ℝ) (epsilon1 epsilon2 : ℝ)
    (grad var : List (List ℝ)) (vr vc : List ℝ) (m : List (List ℝ)) :
    FactoredUpdate :=
  let grad_squared := grad.map (fun row => row.map (fun g => g ^ 2 + epsilon1))
  let grad_squared_mean := reduce_mean grad_squared.flatten
  let update_scale0 := learning_rate
  let update_scale1 :=
    if multiply_by_parameter_scale then
      update_scale0 * max (reduce_rms var.flatten) epsilon2
    else update_scale0
  let decay_rate := decay_rate0 + grad_squared_mean * (1 / 10 ^ 30)
  let update_scale := update_scale1 + grad_squared_mean * (1 / 10 ^ 30)
  let mixing_rate := 1 - decay_rate
  let grad_squared_row_mean := grad_squared.map reduce_mean
  let grad_squared_col_mean := grad_squared.transpose.map reduce_mean
  let new_vr := (vr.zip grad_squared_row_mean).map
    (fun p => decay_rate * p.1 + mixing_rate * p.2)
  let new_vc := (vc.zip grad_squared_col_mean).map
    (fun p => decay_rate * p.1 + mixing_rate * p.2)
  let long_term_mean := reduce_mean new_vr
  let r_factor := new_vr.map (fun a => (Real.sqrt (a / long_term_mean))⁻¹)
  let c_factor := new_vc.map (fun a => (Real.sqrt a)⁻¹)
  let x0 : List (List ℝ) := (grad.zip r_factor).map
    (fun p => (p.1.zip c_factor).map (fun q => q.1 * p.2 * q.2))
  let x : List (List ℝ) := match clipping_threshold with
    | some ct =>
      let clipping_denom := max 1 (reduce_rms x0.flatten / ct)
      x0.map (fun row => row.map (fun a => a / clipping_denom))
    | none => x0
  let subtrahend0 := x.map (fun row => row.map (fun xi => update_scale * xi))
  let new_m :=
    if beta1 = 0 then m
    else (m.zip subtrahend0).map
      (fun p => (p.1.zip p.2).map (fun q => beta1 * q.1 + (1 - beta1) * q.2))
  let subtrahend := if beta1 = 0 then subtrahend0 else new_m
  { decay_rate := decay_rate, update_scale := update_scale,
    mixing_rate := mixing_rate, new_vr := new_vr, new_vc := new_vc,
    new_m := new_m,
    new_val := (var.zip subtrahend).map
      (fun p => (p.1.zip p.2).map (fun q => q.1 - q.2)) }

/-- Lines 518-522: the Adam-equivalent decay-rate schedule
`t = step + 1; decay = beta2 * (1 - beta2^(t-1)) / (1 - beta2^t)`. -/
def adafactor_decay_rate_adam (beta2 : ℚ) (global_step : ℕ) : ℚ :=
  let t : ℕ := global_step + 1
  beta2 * (1 - beta2 ^ (t - 1)) / (1 - beta2 ^ t)

/-- Lines 525-526: the power-law schedule
`1 - (step + 1) ** (-exponent)`. -/
noncomputable def adafactor_decay_rate_pow (exponent : ℝ) (global_step : ℕ) : ℝ :=
  1 - ((global_step : ℝ) + 1) ^ (-exponent)

/-- **C7**: with factoring enabled, a parameter of rank ≥ 2 gets exactly two
second-moment accumulators — a row accumulator shaped as the parameter's
shape with the last axis removed and a column accumulator shaped as the
shape with the second-to-last axis removed (so a `(4,3)` parameter carries
`4 + 3 = 7` auxiliary scalars, not 12) — while rank < 2 or factoring
disabled yields one full accumulator of the parameter's shape. -/
theorem claim_factored_slot_shapes (beta1 : ℚ) (factored : Bool)
    (shape : List ℕ) :
    (2 ≤ shape.length →
      (create_slots beta1 true shape).second
        = .factoredSlots shape.dropLast (shape.eraseIdx (shape.length - 2)) ∧
      ((create_slots beta1 true shape).second).auxScalarCount
        = shape.dropLast.prod + (shape.eraseIdx (shape.length - 2)).prod) ∧
    (shape.length < 2 →
      (create_slots beta1 factored shape).second = .fullSlot shape ∧
      ((create_slots beta1 factored shape).second).auxScalarCount
        = shape.prod) ∧
    ((create_slots beta1 false shape).second = .fullSlot shape) ∧
    ((create_slots 0 true [4, 3]).second = .factoredSlots [4] [3] ∧
      ((create_slots 0 true [4, 3]).second).auxScalarCount = 7 ∧
      ([4, 3] : List ℕ).prod = 12) := by
  refine ⟨?_, ?_, ?_, by decide, by decide, by decide⟩
  · intro h2
    have hf : should_use_factored_second_moment_estimate true shape = true := by
      simp [should_use_factored_second_moment_estimate, h2]
    have hsec : (create_slots beta1 true shape).second
        = .factoredSlots shape.dropLast (shape.eraseIdx (shape.length - 2)) := by
      simp only [create_slots, hf, if_true]
      rw [List.dropLast_eq_take, List.eraseIdx_eq_take_drop_succ,
        show shape.length - 2 + 1 = shape.length - 1 by omega]
    exact ⟨hsec, by rw [hsec]; rfl⟩
  · intro hlt
    have hf : should_use_factored_second_moment_estimate factored shape
        = false := by
      simp only [should_use_factored_second_moment_estimate,
        Bool.and_eq_false_iff]
      right
      simpa using by omega
    have hsec : (create_slots beta1 factored shape).second = .fullSlot shape := by
      simp [create_slots, hf]
    exact ⟨hsec, by rw [hsec]; rfl⟩
  · simp [create_slots, should_use_factored_second_moment_estimate]

/-- Witness for C7: at shape `(4,3)` the factored path holds `4 + 3`
scalars; at rank-1 shape `(7)` and with factoring off the slot is full. -/
theorem claim_factored_slot_shapes_witness :
    (create_slots 0 true [4, 3]).second = .factoredSlots [4] [3] ∧
    ((create_slots 0 true [4, 3]).second).auxScalarCount = 4 + 3 ∧
    (create_slots 0 true [7]).second = .fullSlot [7] ∧
    (create_slots 0 false [4, 3]).second = .fullSlot [4, 3] := by
  refine ⟨?_, ?_, ?_, ?_⟩
  · exact ((claim_factored_slot_shapes 0 true [4, 3]).1 (by decide)).1
  · exact ((claim_factored_slot_shapes 0 true [4, 3]).1 (by decide)).2
  · exact ((claim_factored_slot_shapes 0 true [7]).2.1 (by decide)).1
  · exact (claim_factored_slot_shapes 0 false [4, 3]).2.2.1

/-! ### Update clipping (C5) -/

theorem sum_sq_map_div (x : List ℝ) (d : ℝ) :
    ((x.map (fun v => v / d)).map (fun v => v ^ 2)).sum
      = (x.map (fun v => v ^ 2)).sum / d ^ 2 := by
  induction x with
  | nil => simp
  | cons a l ih =>
    simp only [List.map_cons, List.sum_cons, ih, div_pow, add_div]

theorem sum_sq_nonneg (x : List ℝ) : 0 ≤ (x.map (fun v => v ^ 2)).sum := by
  apply List.sum_nonneg
  intro a ha
  simp only [List.mem_map] at ha
  obtain ⟨b, _, rfl⟩ := ha
  positivity

theorem reduce_rms_map_div (x : List ℝ) (d : ℝ) (hd : 0 ≤ d) :
    reduce_rms (x.map (fun v => v / d)) = reduce_rms x / d := by
  unfold reduce_rms reduce_mean
  simp only [List.length_map, sum_sq_map_div]
  rw [div_div, mul_comm ((d:ℝ) ^ 2) _, ← div_div]
  rw [Real.sqrt_div (div_nonneg (sum_sq_nonneg x) (Nat.cast_nonneg _)) (d ^ 2),
    Real.sqrt_sq hd]

/-- **C5**: with a positive clipping threshold, after
`x / max(1, rms(x)/threshold)` the RMS is at most the threshold. -/
theorem claim_clip_rms_bound (clipping_threshold : ℝ) (x : List ℝ)
    (hct : 0 < clipping_threshold) :
    reduce_rms (clip_update clipping_threshold x) ≤ clipping_threshold := by
  unfold clip_update
  set d := max 1 (reduce_rms x / clipping_threshold) with hd
  have hd1 : (1:ℝ) ≤ d := le_max_left _ _
  have hd0 : (0:ℝ) < d := by linarith
  rw [reduce_rms_map_div x d (le_of_lt hd0)]
  have hdge : reduce_rms x / clipping_threshold ≤ d := le_max_right _ _
  rw [div_le_iff₀ hd0]
  calc reduce_rms x
      = (reduce_rms x / clipping_threshold) * clipping_threshold := by
        field_simp
    _ ≤ d * clipping_threshold :=
        mul_le_mul_of_nonneg_right hdge (le_of_lt hct)
    _ = clipping_threshold * d := mul_comm _ _

/-- Witness for C5: `threshold = 1`, `x = [3, 4]`. -/
theorem claim_clip_rms_bound_witness :
    (0:ℝ) < 1 ∧ reduce_rms (clip_update 1 [3, 4]) ≤ 1 :=
  ⟨by norm_num, claim_clip_rms_bound 1 [3, 4] (by norm_num)⟩

/-- **C3** (amended): the Adam-equivalent schedule at step `t` is
`beta2·(1-beta2^t)/(1-beta2^(t+1))` and the power-law schedule is
`1-(t+1)^(-0.8)`, as claimed; but in the per-parameter update the decay
rate actually used is the scheduled rate plus the anti-XLA-fusion term
`mean(grad² + ε₁)·1e-30`, and the mixing rate of the second-moment EMA
(both the full `v` and the factored `vr`/`vc` updates) equals 1 minus that
perturbed decay rate — not exactly 1 minus the scheduled decay rate. -/
theorem claim_decay_schedule_mixing (beta2 : ℚ) (t : ℕ)
    (decay_rate0 learning_rate beta1 : ℝ) (mbps : Bool)
    (clipping_threshold : Option ℝ) (eps1 eps2 : ℝ) (grad var v m : List ℝ)
    (gradM varM : List (List ℝ)) (vr vc : List ℝ) (mM : List (List ℝ)) :
    adafactor_decay_rate_adam beta2 t
      = beta2 * (1 - beta2 ^ t) / (1 - beta2 ^ (t + 1)) ∧
    adafactor_decay_rate_pow (8/10) t = 1 - ((t : ℝ) + 1) ^ (-(8/10 : ℝ)) ∧
    (resource_apply_dense_full decay_rate0 learning_rate beta1 mbps
        clipping_threshold eps1 eps2 grad var v m).decay_rate
      = decay_rate0
          + reduce_mean (grad.map (fun g => g ^ 2 + eps1)) * (1 / 10 ^ 30) ∧
    (resource_apply_dense_full decay_rate0 learning_rate beta1 mbps
        clipping_threshold eps1 eps2 grad var v m).mixing_rate
      = 1 - (resource_apply_dense_full decay_rate0 learning_rate beta1 mbps
          clipping_threshold eps1 eps2 grad var v m).decay_rate ∧
    (resource_apply_dense_full decay_rate0 learning_rate beta1 mbps
        clipping_threshold eps1 eps2 grad var v m).new_v
      = (v.zip (grad.map (fun g => g ^ 2 + eps1))).map
          (fun p =>
            (resource_apply_dense_full decay_rate0 learning_rate beta1 mbps
              clipping_threshold eps1 eps2 grad var v m).decay_rate * p.1
            + (resource_apply_dense_full decay_rate0 learning_rate beta1 mbps
              clipping_threshold eps1 eps2 grad var v m).mixing_rate * p.2) ∧
    (resource_apply_dense_factored decay_rate0 learning_rate beta1 mbps
        clipping_threshold eps1 eps2 gradM varM vr vc mM).decay_rate
      = decay_rate0
          + reduce_mean ((gradM.map (fun row => row.map
              (fun g => g ^ 2 + eps1))).flatten) * (1 / 10 ^ 30) ∧
    (resource_apply_dense_factored decay_rate0 learning_rate beta1 mbps
        clipping_threshold eps1 eps2 gradM varM vr vc mM).mixing_rate
      = 1 - (resource_apply_dense_factored decay_rate0 learning_rate beta1 mbps
          clipping_threshold eps1 eps2 gradM varM vr vc mM).decay_rate ∧
    (resource_apply_dense_factored decay_rate0 learning_rate beta1 mbps
        clipping_threshold eps1 eps2 gradM varM vr vc mM).new_vr
      = (vr.zip ((gradM.map (fun row => row.map
            (fun g => g ^ 2 + eps1))).map reduce_mean)).map
          (fun p =>
            (resource_apply_dense_factored decay_rate0 learning_rate beta1 mbps
              clipping_threshold eps1 eps2 gradM varM vr vc mM).decay_rate * p.1
            + (resource_apply_dense_factored decay_rate0 learning_rate beta1 mbps
              clipping_threshold eps1 eps2 gradM varM vr vc mM).mixing_rate * p.2) ∧
    (resource_apply_dense_factored decay_rate0 learning_rate beta1 mbps
        clipping_threshold eps1 eps2 gradM varM vr vc mM).new_vc
      = (vc.zip ((gradM.map (fun row => row.map
            (fun g => g ^ 2 + eps1))).transpose.map reduce_mean)).map
          (fun p =>
            (resource_apply_dense_factored decay_rate0 learning_rate beta1 mbps
              clipping_threshold eps1 eps2 gradM varM vr vc mM).decay_rate * p.1
            + (resource_apply_dense_factored decay_rate0 learning_rate beta1 mbps
              clipping_threshold eps1 eps2 gradM varM vr vc mM).mixing_rate * p.2) := by
  refine ⟨?_, rfl, rfl, rfl, rfl, rfl, rfl, rfl, rfl⟩
  simp [adafactor_decay_rate_adam]

/-- **C3** counterexample: with scheduled decay rate `1/2`, `grad = [1]` and
`ε₁ = 1e-30`, the mixing rate used in the update is
`1 - (1/2 + (1 + 1e-30)·1e-30)`, which differs from `1 - 1/2`. -/
theorem claim_decay_schedule_mixing_cex :
    (resource_apply_dense_full (1/2) 1 0 false none (1/10 ^ 30) (1/10 ^ 3)
        [1] [0] [0] [0]).mixing_rate ≠ 1 - 1/2 := by
  simp only [resource_apply_dense_full, reduce_mean, List.map_cons,
    List.map_nil, List.sum_cons, List.sum_nil, List.length_cons,
    List.length_nil]
  norm_num

end GPT2
